import Mathlib

/-!
# Verification of the `gdb-command` core (`src/lib.rs`)

Shallow embedding of the pure core of the library:

* mapped-file table parsing (`MappedFiles::from_gdb`) and lookup (`find`),
* stack-frame parsing (`StacktraceEntry::new`, a cascade of eight regexes),
* frame equality (`PartialEq for StacktraceEntry`) and the data fed to the
  hasher (`Hash for StacktraceEntry`),
* module/offset resolution (`Stacktrace::compute_module_offsets`),
* sentinel-based output demultiplexing (`GdbCommand::launch`).

Machine integers (`u64`/`usize`, both 64-bit) are embedded as `Nat`; wherever
the Rust code can overflow or panic, the model makes this explicit
(`% 2^64`, or an explicit `panic` error constructor).  Rust panics
(`unwrap()` on a failed conversion, out-of-bounds `String::drain`,
reversed slice bounds) are modelled by the `PErr.panic` constructor, while
errors returned through the crate's `error::Result` (the `error` module is
declared in `lib.rs` but its file is not part of the sources; its role as a
carrier of typed parse errors is modelled from the spec) are
`PErr.parseError`.
-/

/-- `2^64`, the number of values of `u64`/`usize` (64-bit platform). -/
def U64 : Nat := 2 ^ 64

/-- `u64::MAX = usize::MAX` on a 64-bit platform. -/
def USIZE_MAX : Nat := U64 - 1

/-- Modelled from the spec: the crate's typed error kind (module `error` is
declared in `lib.rs` but not present in the sources).  `parseError` stands
for errors returned as `Err(error::Error::…)` (mapping-parse, stacktrace-parse
and propagated numeric-conversion errors); `panic` stands for a Rust panic
(a failed `unwrap()`, an out-of-bounds `String::drain`, a reversed slice). -/
inductive PErr where
  | parseError (msg : String)
  | panic (msg : String)
deriving DecidableEq, Repr

/-- `File` struct: one segment in the process address space (`lib.rs:56`). -/
structure File where
  start : Nat
  «end» : Nat
  offset : Nat
  name : String
deriving DecidableEq, Repr, Inhabited

/-- `MappedFiles = Vec<File>` (`lib.rs:100`). -/
abbrev MappedFiles := List File

/-- The containment test used by `MappedFiles::find`
(`x.start <= addr && x.end > addr`, `lib.rs:175`). -/
def containsAddr (f : File) (addr : Nat) : Bool :=
  decide (f.start ≤ addr) && decide (addr < f.«end»)

/-- `MappedFiles::find` (`lib.rs:173-177`): first file in table order whose
half-open interval contains the address. -/
def mfind : MappedFiles → Nat → Option File
  | [], _ => none
  | f :: rest, addr => if containsAddr f addr then some f else mfind rest addr

/-! ## String utilities

Rust string operations are embedded as structurally recursive functions on
`List Char` (core `String.splitOn`/`String.trim` are defined by well-founded
recursion and do not reduce in the kernel).  `char::is_whitespace` and the
regex classes `\d`/`\s` are modelled by `Char.isWhitespace`/`Char.isDigit`
(ASCII-faithful; the Rust versions also cover further Unicode code points,
which no claim exercises). -/

/-- Rust `str::split(c)`: split at every occurrence of `c`;
`"".split(c)` is `[""]`, separators at the ends produce empty pieces. -/
def splitCh (sep : Char) : List Char → List (List Char)
  | [] => [[]]
  | c :: rest =>
    match splitCh sep rest with
    | [] => [[]]
    | g :: gs => if c = sep then [] :: g :: gs else (c :: g) :: gs

/-- Rust `str::trim`. -/
def trimCh (cs : List Char) : List Char :=
  ((cs.dropWhile Char.isWhitespace).reverse.dropWhile Char.isWhitespace).reverse

/-- Rust `str::contains("Start Addr")`. -/
def strContainsSA (l : List Char) : Bool :=
  decide ("Start Addr".data <:+: l)

/-- Rust `Vec::join("\n")` on a list of lines. -/
def joinLines : List String → String
  | [] => ""
  | [s] => s
  | s :: rest => s ++ "\n" ++ joinLines rest

/-- `Iterator::position` (first index satisfying the predicate). -/
def findIdxO (p : α → Bool) : List α → Option Nat
  | [] => none
  | a :: as => if p a then some 0 else (findIdxO p as).map (· + 1)

/-- The `for`-loop of `from_gdb` (push each parsed line, abort on first
error), and equally Rust's `collect::<Result<Vec<_>,_>>` shape. -/
def mapMExcept (f : α → Except ε β) : List α → Except ε (List β)
  | [] => .ok []
  | a :: as =>
    match f a with
    | .error e => .error e
    | .ok b =>
      match mapMExcept f as with
      | .error e => .error e
      | .ok bs => .ok (b :: bs)

/-! ## `MappedFiles::from_gdb` (`lib.rs:119-171`) -/

/-- Hex digit test of `u64::from_str_radix(_, 16)` (both cases accepted). -/
def isHexDigitCh (c : Char) : Bool :=
  c.isDigit || (decide ('a' ≤ c) && decide (c ≤ 'f')) || (decide ('A' ≤ c) && decide (c ≤ 'F'))

/-- Value of a hex digit. -/
def hexDigitVal (c : Char) : Nat :=
  if c.isDigit then c.toNat - 48 else if 'a' ≤ c then c.toNat - 87 else c.toNat - 55

/-- Numeric value of a hex digit string. -/
def hexNat (ds : List Char) : Nat :=
  ds.foldl (fun a c => a * 16 + hexDigitVal c) 0

/-- `u64::from_str_radix(s, 16)`: an optional leading `+`, then a non-empty
run of hex digits whose value fits in `u64`; anything else (including
overflow) is a returned `Err`, so `none` here. -/
def hexParse (cs : List Char) : Option Nat :=
  let ds := match cs with | '+' :: r => r | r => r
  if ds ≠ [] ∧ ds.all isHexDigitCh then
    if hexNat ds ≤ USIZE_MAX then some (hexNat ds) else none
  else none

/-- `tok.clone().drain(2..).collect::<String>()`: the token without its first
two characters.  `String::drain` panics when the start of the range is out of
bounds, i.e. when the token is shorter than two characters (byte positions
coincide with character positions on ASCII input). -/
def stripTwo (tok : List Char) : Except PErr (List Char) :=
  if tok.length < 2 then .error (.panic "byte index 2 is out of bounds")
  else .ok (tok.drop 2)

/-- One whitespace-separated token list of a data line:
`x.split(' ').map(trim)` with empty pieces removed (`lib.rs:137-141`). -/
def tokensOf (l : List Char) : List (List Char) :=
  ((splitCh ' ' l).map trimCh).filter (· ≠ [])

/-- Strip two characters, then hex-parse, as applied to tokens 1, 2 and 4 of
a data line; a failed parse is propagated through `?` as a typed error. -/
def hexTok (t : List Char) : Except PErr Nat :=
  match stripTwo t with
  | .error e => .error e
  | .ok s =>
    match hexParse s with
    | some v => .ok v
    | none => .error (.parseError ("invalid hex digits: " ++ String.mk s))

/-- The body of the `for` loop of `from_gdb` (`lib.rs:136-168`): parse one
(already trimmed) line after the header into a `File`. -/
def parseMapLine (l : List Char) : Except PErr File :=
  match tokensOf l with
  | t0 :: t1 :: _t2 :: t3 :: rest =>
    match hexTok t0 with
    | .error e => .error e
    | .ok vs =>
      match hexTok t1 with
      | .error e => .error e
      | .ok ve =>
        match hexTok t3 with
        | .error e => .error e
        | .ok vo => .ok ⟨vs, ve, vo, match rest with | [p] => String.mk p | _ => ""⟩
  | _ => .error (.parseError ("Expected at least 4 columns in " ++ String.mk l))

/-- The input split into lines, each trimmed (`lib.rs:120-124`). -/
def linesOf (mapping : String) : List (List Char) :=
  (splitCh '\n' mapping.data).map trimCh

/-- Position of the header line, the first line containing `"Start Addr"`
(`lib.rs:126`). -/
def headerIdx (mapping : String) : Option Nat :=
  findIdxO strContainsSA (linesOf mapping)

/-- `MappedFiles::from_gdb` (`lib.rs:119-171`). -/
def fromGdb (mapping : String) : Except PErr MappedFiles :=
  match headerIdx mapping with
  | none => .error (.parseError ("Couldn't find Start Addr: " ++ mapping))
  | some p => mapMExcept parseMapLine ((linesOf mapping).drop (p + 1))

/-- A token on which `hexTok` fails (too short, so `drain(2..)` panics, or
the remainder is not a valid `u64` hex literal). -/
def badTok (t : List Char) : Bool :=
  decide (t.length < 2) || decide (hexParse (t.drop 2) = none)

/-- A line on which `parseMapLine` fails: fewer than four tokens (empty
lines included), or a bad first, second or fourth token. -/
def badLine (l : List Char) : Bool :=
  match tokensOf l with
  | t0 :: t1 :: _ :: t3 :: _ => badTok t0 || badTok t1 || badTok t3
  | _ => true

/-- The field-level relation between a data line and the `File` built from
it: tokens 1, 2, 4 hex-parse (after stripping two characters) to `start`,
`end`, `offset`, and the backing path is the fifth token exactly when there
are exactly five tokens. -/
def LineFile (l : List Char) (f : File) : Prop :=
  ∃ t0 t1 t2 t3 rest, tokensOf l = t0 :: t1 :: t2 :: t3 :: rest ∧
    2 ≤ t0.length ∧ hexParse (t0.drop 2) = some f.start ∧
    2 ≤ t1.length ∧ hexParse (t1.drop 2) = some f.«end» ∧
    2 ≤ t3.length ∧ hexParse (t3.drop 2) = some f.offset ∧
    f.name = (match rest with | [p] => String.mk p | _ => "")

/-! ## Stack frames (`lib.rs:180-241`) -/

/-- `FrameDebug`/`DebugInfo` struct (`lib.rs:196-204`); its Rust `PartialEq`
is derived, i.e. field-wise. -/
structure DebugInfo where
  file : String
  line : Nat
  column : Nat
deriving DecidableEq, Repr, Inhabited

/-- `StacktraceEntry` struct (`lib.rs:181-193`).  Lean's structural equality
on this type is *not* the Rust `PartialEq` (that one is `steq` below). -/
structure StacktraceEntry where
  address : Nat
  function : String
  module : String
  offset : Nat
  debug : DebugInfo
deriving DecidableEq, Repr, Inhabited

/-- `impl PartialEq for StacktraceEntry` (`lib.rs:206-221`). -/
def steq (a b : StacktraceEntry) : Bool :=
  if a.debug.file ≠ "" ∧ b.debug.file ≠ "" then decide (a.debug = b.debug)
  else if a.module ≠ "" ∧ b.module ≠ "" ∧ a.offset ≠ 0 ∧ b.offset ≠ 0 then
    decide (a.module = b.module ∧ a.offset = b.offset)
  else decide (a.address = b.address)

/-- The data written to the hasher by one frame: the `Hash` contract makes
two hashes equal whenever the written data streams are equal, and a
`HashSet` relies on `a == b → hash a = hash b`, i.e. on equal frames
writing equal streams. -/
inductive HashData where
  | viaDebug (file : String) (line column : Nat)
  | viaModule (module : String) (offset : Nat)
  | viaAddr (address : Nat)
deriving DecidableEq, Repr

/-- `impl Hash for StacktraceEntry` (`lib.rs:225-241`): which fields are
written to the hasher. -/
def hashData (e : StacktraceEntry) : HashData :=
  if e.debug.file ≠ "" then .viaDebug e.debug.file e.debug.line e.debug.column
  else if e.module ≠ "" ∧ e.offset ≠ 0 then .viaModule e.module e.offset
  else .viaAddr e.address

/-- `Stacktrace::compute_module_offsets` (`lib.rs:445-452`).  The in-place
mutation is embedded as a `map`; `x.address - y.start + y.offset` is `u64`
arithmetic (`find` guarantees `y.start ≤ x.address`, so the subtraction
cannot underflow; the addition wraps at `2^64`). -/
def computeModuleOffsets (t : List StacktraceEntry) (m : MappedFiles) : List StacktraceEntry :=
  t.map fun x =>
    match mfind m x.address with
    | some y => { x with offset := (x.address - y.start + y.offset) % U64, module := y.name }
    | none => x

/-! ## A leftmost-first regular-expression engine

`StacktraceEntry::new` matches the line against eight regexes in order
(`lib.rs:249-402`, crate `regex`).  The `regex` crate implements
leftmost-first (Perl-like) match semantics: alternatives are tried in
order, `?`, `*` and `+` are greedy, and the reported capture groups are
the ones of the first match found in this backtracking order.  The engine
below implements exactly these semantics for the fragment the eight
regexes use (literals, character classes, `?`, and `*`/`+` over a
character class).  Anchoring: all eight patterns are `^`-anchored, so
matching starts at position 0 and — absent `$`/`eos` — a match may end
before the end of the line. -/

/-- Capture environment: group index ↦ captured characters (later entries
shadow earlier ones). -/
abbrev Caps := List (Nat × List Char)

/-- Regex abstract syntax (the fragment used by `lib.rs`). -/
inductive RE where
  /-- literal character sequence -/
  | lit (cs : List Char)
  /-- single character of a class -/
  | cls (p : Char → Bool)
  /-- concatenation -/
  | seq (a b : RE)
  /-- greedy `?` -/
  | opt (a : RE)
  /-- greedy `*` over a character class -/
  | starC (p : Char → Bool)
  /-- greedy `+` over a character class -/
  | plusC (p : Char → Bool)
  /-- capture group `n` -/
  | grp (n : Nat) (a : RE)
  /-- `$` (end of haystack) -/
  | eos

/-- `stripPrefixL p s` removes the literal prefix `p` from `s`. -/
def stripPrefixL : List Char → List Char → Option (List Char)
  | [], s => some s
  | _ :: _, [] => none
  | p :: ps, c :: cs => if p = c then stripPrefixL ps cs else none

/-- Record a capture. -/
def setCap (caps : Caps) (n : Nat) (v : List Char) : Caps := (n, v) :: caps

/-- `caps.get(n)` of the `regex` crate. -/
def grpGet (caps : Caps) (n : Nat) : Option (List Char) :=
  (caps.find? (fun p => p.1 == n)).map (·.2)

/-- Greedy matching of `p*`: consume as many class characters as possible,
backtracking one character at a time into the continuation. -/
def starRun (p : Char → Bool) : List Char → (List Char → Option Caps) → Option Caps
  | [], k => k []
  | c :: r, k =>
    if p c then Option.orElse (starRun p r k) (fun _ => k (c :: r)) else k (c :: r)

/-- CPS matcher: `reM r s caps k` tries to match `r` against a prefix of
`s`, in leftmost-first order, calling `k` on the rest and the extended
captures; the first success wins. -/
def reM : RE → List Char → Caps → (List Char → Caps → Option Caps) → Option Caps
  | .lit cs, s, caps, k =>
    match stripPrefixL cs s with
    | some r => k r caps
    | none => none
  | .cls p, s, caps, k =>
    match s with
    | [] => none
    | c :: r => if p c then k r caps else none
  | .seq a b, s, caps, k => reM a s caps (fun s' caps' => reM b s' caps' k)
  | .opt a, s, caps, k => Option.orElse (reM a s caps k) (fun _ => k s caps)
  | .starC p, s, caps, k => starRun p s (fun s' => k s' caps)
  | .plusC p, s, caps, k =>
    match s with
    | [] => none
    | c :: r => if p c then starRun p r (fun s' => k s' caps) else none
  | .grp n a, s, caps, k =>
    reM a s caps (fun s' caps' => k s' (setCap caps' n (s.take (s.length - s'.length))))
  | .eos, s, caps, k =>
    match s with
    | [] => k [] caps
    | _ :: _ => none

/-- `Regex::captures` for a `^`-anchored pattern: match at position 0,
allowing trailing input, and return the captures of the first match. -/
def reCaptures (r : RE) (s : String) : Option Caps :=
  reM r s.data [] (fun _ caps => some caps)

/-- Right-nested concatenation of a pattern list. -/
def RE.seqs : List RE → RE
  | [] => .lit []
  | [r] => r
  | r :: rest => .seq r (RE.seqs rest)

/-- `[0-9a-f]` (lowercase, as written in `lib.rs`). -/
def isLHex (c : Char) : Bool := c.isDigit || (decide ('a' ≤ c) && decide (c ≤ 'f'))

/-- `[^\(\)]`. -/
def noParen (c : Char) : Bool := decide (c ≠ '(') && decide (c ≠ ')')

/-- `[^ \(\)]`. -/
def noSpParen (c : Char) : Bool := decide (c ≠ ' ') && noParen c

/-- ` *` -/
def reSp : RE := .starC (· == ' ')

/-- ` +` -/
def reSpP : RE := .plusC (· == ' ')

/-- `[0-9]+`, also `\d+` -/
def reDigP : RE := .plusC Char.isDigit

/-- `[0-9a-f]+` -/
def reHexP : RE := .plusC isLHex

/-- `.+` (any character but newline) -/
def reDotP : RE := .plusC (· != '\n')

/-- `.*` -/
def reDotS : RE := .starC (· != '\n')

/-- literal -/
def reLit (s : String) : RE := .lit s.data

/-- Rule 1 (`lib.rs:254`):
`^ *#[0-9]+ *0x([0-9a-f]+) *(?:in *(.+))? *\((.*)\+0x([0-9a-f]+)\)` -/
def reAsanModOff : RE := RE.seqs
  [reSp, reLit "#", reDigP, reSp, reLit "0x", .grp 1 reHexP, reSp,
   .opt (RE.seqs [reLit "in", reSp, .grp 2 reDotP]), reSp,
   reLit "(", .grp 3 reDotS, reLit "+0x", .grp 4 reHexP, reLit ")"]

/-- Rule 2 (`lib.rs:273`):
`^ *#[0-9]+ *(?:0x([0-9a-f]+) +in)? *(.+) +at +(.+):(\d+):(\d+)` -/
def reGdbSrcLC : RE := RE.seqs
  [reSp, reLit "#", reDigP, reSp,
   .opt (RE.seqs [reLit "0x", .grp 1 reHexP, reSpP, reLit "in"]), reSp,
   .grp 2 reDotP, reSpP, reLit "at", reSpP,
   .grp 3 reDotP, reLit ":", .grp 4 reDigP, reLit ":", .grp 5 reDigP]

/-- Rule 3 (`lib.rs:293`):
`^ *#[0-9]+ *(?:0x([0-9a-f]+) +in)? *(.+) +at +(.+):(\d+)` -/
def reGdbSrcL : RE := RE.seqs
  [reSp, reLit "#", reDigP, reSp,
   .opt (RE.seqs [reLit "0x", .grp 1 reHexP, reSpP, reLit "in"]), reSp,
   .grp 2 reDotP, reSpP, reLit "at", reSpP,
   .grp 3 reDotP, reLit ":", .grp 4 reDigP]

/-- Rule 4 (`lib.rs:311`):
`^ *#[0-9]+ *(?:0x([0-9a-f]+) +in)? *(.+) +at +(.+)` -/
def reGdbSrc : RE := RE.seqs
  [reSp, reLit "#", reDigP, reSp,
   .opt (RE.seqs [reLit "0x", .grp 1 reHexP, reSpP, reLit "in"]), reSp,
   .grp 2 reDotP, reSpP, reLit "at", reSpP, .grp 3 reDotP]

/-- `[^ \(\)]+(?: *\(.*\))?` (a function name with an optional
parenthesised argument list). -/
def reFunc : RE := RE.seqs
  [.plusC noSpParen, .opt (RE.seqs [reSp, reLit "(", reDotS, reLit ")"])]

/-- Rule 5 (`lib.rs:328`):
`^ *#[0-9]+ *0x([0-9a-f]+) *in *([^ \(\)]+(?: *\(.*\))?) *([^\(\)]+):(\d+):(\d+)` -/
def reAsanSrcLC : RE := RE.seqs
  [reSp, reLit "#", reDigP, reSp, reLit "0x", .grp 1 reHexP, reSp,
   reLit "in", reSp, .grp 2 reFunc, reSp,
   .grp 3 (.plusC noParen), reLit ":", .grp 4 reDigP, reLit ":", .grp 5 reDigP]

/-- Rule 6 (`lib.rs:348`):
`^ *#[0-9]+ *0x([0-9a-f]+) *in *([^ \(\)]+(?: *\(.*\))?) *([^\(\)]+):(\d+)` -/
def reAsanSrcL : RE := RE.seqs
  [reSp, reLit "#", reDigP, reSp, reLit "0x", .grp 1 reHexP, reSp,
   reLit "in", reSp, .grp 2 reFunc, reSp,
   .grp 3 (.plusC noParen), reLit ":", .grp 4 reDigP]

/-- Rule 7 (`lib.rs:366`):
`^ *#[0-9]+ *0x([0-9a-f]+) *in *([^ \(\)]+(?: *\(.*\))?) *([^\(\)]+)$` -/
def reAsanSrc : RE := RE.seqs
  [reSp, reLit "#", reDigP, reSp, reLit "0x", .grp 1 reHexP, reSp,
   reLit "in", reSp, .grp 2 reFunc, reSp, .grp 3 (.plusC noParen), .eos]

/-- Rule 8 (`lib.rs:381`):
`^ *#[0-9]+ *(?:0x([0-9a-f]+) +in)? *([^ \(\)]+ *\(.*\))(?: +from +(.+))?` -/
def reGdbNoSrc : RE := RE.seqs
  [reSp, reLit "#", reDigP, reSp,
   .opt (RE.seqs [reLit "0x", .grp 1 reHexP, reSpP, reLit "in"]), reSp,
   .grp 2 (RE.seqs [.plusC noSpParen, reSp, reLit "(", reDotS, reLit ")"]),
   .opt (RE.seqs [reSpP, reLit "from", reSpP, .grp 3 reDotP])]

/-! ## `StacktraceEntry::new` (`lib.rs:249-402`) -/

/-- `.trim().to_string()` on a captured group. -/
def trimStr (cs : List Char) : String := String.mk (trimCh cs)

/-- `u64::from_str_radix(g, 16).unwrap()` on a captured hex-digit group:
the only way the conversion can fail is overflow, and the `unwrap` then
panics. -/
def u64OfHexDigits (what : String) (ds : List Char) : Except PErr Nat :=
  if hexNat ds ≤ USIZE_MAX then .ok (hexNat ds)
  else .error (.panic ("unwrap on Err: " ++ what ++ " overflows u64"))

/-- Numeric value of a decimal digit string. -/
def natDec (ds : List Char) : Nat :=
  ds.foldl (fun a c => a * 10 + (c.toNat - 48)) 0

/-- `g.parse::<u64>().unwrap()` on a captured decimal-digit group. -/
def u64OfDecDigits (what : String) (ds : List Char) : Except PErr Nat :=
  if natDec ds ≤ USIZE_MAX then .ok (natDec ds)
  else .error (.panic ("unwrap on Err: " ++ what ++ " overflows u64"))

/-- `caps.get(n).unwrap()`: panics when the group did not participate. -/
def grpE (caps : Caps) (n : Nat) : Except PErr (List Char) :=
  match grpGet caps n with
  | some v => .ok v
  | none => .error (.panic "unwrap on None: capture group missing")

/-- The optional-address idiom of rules 2, 3, 4, 8
(`if let Some(address) = caps.get(1)`; the default address is `0`). -/
def optAddr (caps : Caps) : Except PErr Nat :=
  match grpGet caps 1 with
  | some a => u64OfHexDigits "address" a
  | none => .ok 0

/-- Rule 1 extraction (`lib.rs:256-269`). -/
def bld1 (caps : Caps) : Except PErr StacktraceEntry :=
  match grpE caps 1 with
  | .error e => .error e
  | .ok g1 =>
    match u64OfHexDigits "address" g1 with
    | .error e => .error e
    | .ok addr =>
      match grpE caps 3 with
      | .error e => .error e
      | .ok g3 =>
        match grpE caps 4 with
        | .error e => .error e
        | .ok g4 =>
          match u64OfHexDigits "offset" g4 with
          | .error e => .error e
          | .ok off =>
            .ok ⟨addr, (match grpGet caps 2 with | some f => trimStr f | none => ""),
              trimStr g3, off, ⟨"", 0, 0⟩⟩

/-- Rule 2 extraction (`lib.rs:274-289`). -/
def bld2 (caps : Caps) : Except PErr StacktraceEntry :=
  match optAddr caps with
  | .error e => .error e
  | .ok addr =>
    match grpE caps 2 with
    | .error e => .error e
    | .ok fn =>
      match grpE caps 3 with
      | .error e => .error e
      | .ok fl =>
        match grpE caps 4 with
        | .error e => .error e
        | .ok ln =>
          match u64OfDecDigits "line" ln with
          | .error e => .error e
          | .ok lnv =>
            match grpE caps 5 with
            | .error e => .error e
            | .ok co =>
              match u64OfDecDigits "column" co with
              | .error e => .error e
              | .ok cov => .ok ⟨addr, trimStr fn, "", 0, ⟨trimStr fl, lnv, cov⟩⟩

/-- Rule 3 extraction (`lib.rs:294-307`). -/
def bld3 (caps : Caps) : Except PErr StacktraceEntry :=
  match optAddr caps with
  | .error e => .error e
  | .ok addr =>
    match grpE caps 2 with
    | .error e => .error e
    | .ok fn =>
      match grpE caps 3 with
      | .error e => .error e
      | .ok fl =>
        match grpE caps 4 with
        | .error e => .error e
        | .ok ln =>
          match u64OfDecDigits "line" ln with
          | .error e => .error e
          | .ok lnv => .ok ⟨addr, trimStr fn, "", 0, ⟨trimStr fl, lnv, 0⟩⟩

/-- Rule 4 extraction (`lib.rs:312-323`). -/
def bld4 (caps : Caps) : Except PErr StacktraceEntry :=
  match optAddr caps with
  | .error e => .error e
  | .ok addr =>
    match grpE caps 2 with
    | .error e => .error e
    | .ok fn =>
      match grpE caps 3 with
      | .error e => .error e
      | .ok fl => .ok ⟨addr, trimStr fn, "", 0, ⟨trimStr fl, 0, 0⟩⟩

/-- Rule 5 extraction (`lib.rs:331-343`). -/
def bld5 (caps : Caps) : Except PErr StacktraceEntry :=
  match grpE caps 1 with
  | .error e => .error e
  | .ok g1 =>
    match u64OfHexDigits "address" g1 with
    | .error e => .error e
    | .ok addr =>
      match grpE caps 2 with
      | .error e => .error e
      | .ok fn =>
        match grpE caps 3 with
        | .error e => .error e
        | .ok fl =>
          match grpE caps 4 with
          | .error e => .error e
          | .ok ln =>
            match u64OfDecDigits "line" ln with
            | .error e => .error e
            | .ok lnv =>
              match grpE caps 5 with
              | .error e => .error e
              | .ok co =>
                match u64OfDecDigits "column" co with
                | .error e => .error e
                | .ok cov => .ok ⟨addr, trimStr fn, "", 0, ⟨trimStr fl, lnv, cov⟩⟩

/-- Rule 6 extraction (`lib.rs:351-361`). -/
def bld6 (caps : Caps) : Except PErr StacktraceEntry :=
  match grpE caps 1 with
  | .error e => .error e
  | .ok g1 =>
    match u64OfHexDigits "address" g1 with
    | .error e => .error e
    | .ok addr =>
      match grpE caps 2 with
      | .error e => .error e
      | .ok fn =>
        match grpE caps 3 with
        | .error e => .error e
        | .ok fl =>
          match grpE caps 4 with
          | .error e => .error e
          | .ok ln =>
            match u64OfDecDigits "line" ln with
            | .error e => .error e
            | .ok lnv => .ok ⟨addr, trimStr fn, "", 0, ⟨trimStr fl, lnv, 0⟩⟩

/-- Rule 7 extraction (`lib.rs:368-376`). -/
def bld7 (caps : Caps) : Except PErr StacktraceEntry :=
  match grpE caps 1 with
  | .error e => .error e
  | .ok g1 =>
    match u64OfHexDigits "address" g1 with
    | .error e => .error e
    | .ok addr =>
      match grpE caps 2 with
      | .error e => .error e
      | .ok fn =>
        match grpE caps 3 with
        | .error e => .error e
        | .ok fl => .ok ⟨addr, trimStr fn, "", 0, ⟨trimStr fl, 0, 0⟩⟩

/-- Rule 8 extraction (`lib.rs:383-396`). -/
def bld8 (caps : Caps) : Except PErr StacktraceEntry :=
  match optAddr caps with
  | .error e => .error e
  | .ok addr =>
    match grpE caps 2 with
    | .error e => .error e
    | .ok fn =>
      .ok ⟨addr, trimStr fn,
        (match grpGet caps 3 with | some m => trimStr m | none => ""), 0, ⟨"", 0, 0⟩⟩

/-- `StacktraceEntry::new` (`lib.rs:249-402`): the cascade of eight rules,
first match wins; if none matches, the typed `StacktraceParse` error
carrying the line is returned. -/
def stNew (entry : String) : Except PErr StacktraceEntry :=
  match reCaptures reAsanModOff entry with
  | some caps => bld1 caps
  | none =>
    match reCaptures reGdbSrcLC entry with
    | some caps => bld2 caps
    | none =>
      match reCaptures reGdbSrcL entry with
      | some caps => bld3 caps
      | none =>
        match reCaptures reGdbSrc entry with
        | some caps => bld4 caps
        | none =>
          match reCaptures reAsanSrcLC entry with
          | some caps => bld5 caps
          | none =>
            match reCaptures reAsanSrcL entry with
            | some caps => bld6 caps
            | none =>
              match reCaptures reAsanSrc entry with
              | some caps => bld7 caps
              | none =>
                match reCaptures reGdbNoSrc entry with
                | some caps => bld8 caps
                | none =>
                  .error (.parseError ("Couldn't parse stack trace entry: " ++ entry))

/-! ## Sentinel demultiplexing (`GdbCommand::launch`, `lib.rs:661-694`)

The two sentinel regexes
`^\$\d+\s*=\s*"gdb-command-start-(\d+)"$` and
`^\$\d+\s*=\s*"gdb-command-end-(\d+)"$`
are deterministic: every repetition is over a character class disjoint from
the character that follows it, so greedy matching without backtracking is
exact, and the two patterns differ only in the literal after
`"gdb-command-`.  They are therefore embedded as one first-character-
deterministic parser returning the kind (start/end) and the captured
index, which in particular shows that no line matches both patterns. -/

/-- Decimal value of the captured `(\d+)` group (the digits are ASCII). -/
def finishSentinel (isStart : Bool) (r : List Char) : Option (Bool × Nat) :=
  let ds := r.takeWhile Char.isDigit
  if ds.isEmpty then none
  else
    match r.dropWhile Char.isDigit with
    | ['"'] => some (isStart, natDec ds)
    | _ => none

/-- Combined matcher for the two sentinel regexes: `some (true, i)` when the
line matches the start pattern with index `i`, `some (false, i)` for the end
pattern, `none` when the line matches neither. -/
def parseSentinel (line : String) : Option (Bool × Nat) :=
  match line.data with
  | '$' :: r =>
    if (r.takeWhile Char.isDigit).isEmpty then none
    else
      match (r.dropWhile Char.isDigit).dropWhile Char.isWhitespace with
      | '=' :: r2 =>
        match r2.dropWhile Char.isWhitespace with
        | '"' :: r3 =>
          match stripPrefixL "gdb-command-".data r3 with
          | some r4 =>
            match stripPrefixL "start-".data r4 with
            | some r5 => finishSentinel true r5
            | none =>
              match stripPrefixL "end-".data r4 with
              | some r5 => finishSentinel false r5
              | none => none
          | none => none
        | _ => none
      | _ => none
  | _ => none

/-- The mutable state of the demultiplexing loop (`lib.rs:675-676`):
position of the last start sentinel, its index, and the result vector. -/
structure DemuxSt where
  start : Nat
  cmdIdx : Nat
  results : List String
deriving Repr

/-- `lines[a..b].join("\n")` (`lib.rs:689`), defined for `a ≤ b ≤ len`. -/
def sliceJoin (lines : List String) (a b : Nat) : String :=
  joinLines ((lines.drop a).take (b - a))

/-- One iteration of the demultiplexing loop (`lib.rs:677-692`) on the line
at position `i`.  The two `parse::<usize>().unwrap()` calls panic when the
captured index exceeds `usize::MAX`; the slice `lines[start + 1..i]` panics
when `start + 1 > i` (which happens when an end sentinel with index 0
arrives at position 0 with commands registered). -/
def demuxStep (N : Nat) (lines : List String) (st : DemuxSt) (i : Nat) (line : String) :
    Except String DemuxSt :=
  match parseSentinel line with
  | some (true, v) =>
    if v ≤ USIZE_MAX then .ok { st with cmdIdx := v, start := i }
    else .error "panic: sentinel index overflows usize"
  | some (false, v) =>
    if v ≤ USIZE_MAX then
      if v = st.cmdIdx ∧ st.cmdIdx < N then
        if st.start + 1 ≤ i then
          .ok { st with results := st.results.set st.cmdIdx (sliceJoin lines (st.start + 1) i) }
        else .error "panic: slice index starts after end"
      else .ok st
    else .error "panic: sentinel index overflows usize"
  | none => .ok st

/-- The demultiplexing loop over the enumerated lines. -/
def demuxLoop (N : Nat) (lines : List String) :
    List (Nat × String) → DemuxSt → Except String (List String)
  | [], st => .ok st.results
  | (i, l) :: rest, st =>
    match demuxStep N lines st i l with
    | .ok st' => demuxLoop N lines rest st'
    | .error e => .error e

/-- The demultiplexing step of `GdbCommand::launch` (`lib.rs:669-693`),
taking the raw output already split at newlines: `N` empty results, then
the scan. -/
def demuxLines (N : Nat) (lines : List String) : Except String (List String) :=
  demuxLoop N lines lines.enum ⟨0, 0, List.replicate N ""⟩

/-- `launch`'s demultiplexing from the raw output text
(`output.split('\n')`, `lib.rs:666-667`). -/
def launchDemux (N : Nat) (output : String) : Except String (List String) :=
  demuxLines N ((splitCh '\n' output.data).map String.mk)

/-- The well-formed output of one registered command: arbitrary
non-sentinel lines, the start sentinel, the captured body, the end
sentinel. -/
structure Seg where
  junk : List String
  sline : String
  body : List String
  eline : String

instance : Inhabited Seg := ⟨⟨[], "", [], ""⟩⟩

/-- The lines a segment contributes to the raw output. -/
def Seg.lines (g : Seg) : List String := g.junk ++ g.sline :: (g.body ++ [g.eline])

/-- Raw output containing, in order, one start/end sentinel pair per
registered command. -/
def sessionLines : List Seg → List String
  | [] => []
  | g :: rest => g.lines ++ sessionLines rest

/-- Segment `g` is well formed for sentinel index `i`: the junk and body
lines match neither sentinel pattern, and the two sentinel lines match
their patterns with index `i`. -/
def SegOk (i : Nat) (g : Seg) : Prop :=
  (∀ s ∈ g.junk, parseSentinel s = none) ∧ (∀ s ∈ g.body, parseSentinel s = none) ∧
  parseSentinel g.sline = some (true, i) ∧ parseSentinel g.eline = some (false, i)

instance (i : Nat) (g : Seg) : Decidable (SegOk i g) :=
  inferInstanceAs (Decidable (_ ∧ _ ∧ _ ∧ _))

/-- The expected final result vector: `results[i + j]` overwritten with the
joined body of segment `j`. -/
def setSeq (res : List String) (i : Nat) : List Seg → List String
  | [] => res
  | g :: rest => setSeq (res.set i (joinLines g.body)) (i + 1) rest

/-- A line matching the start-sentinel pattern (any index). -/
def isStartLine (l : String) : Bool :=
  match parseSentinel l with
  | some (true, _) => true
  | _ => false

/-- The index captured on a sentinel line fits in `usize` (vacuous for
non-sentinel lines); the `unwrap` on `parse::<usize>` cannot panic iff this
holds of every line. -/
def idxOk (l : String) : Bool :=
  match parseSentinel l with
  | some (_, v) => decide (v ≤ USIZE_MAX)
  | none => true

/-- Some start sentinel precedes (strictly) every end sentinel with
index 0 — rules out the spurious initial `cmd_idx = 0` match. -/
def end0Guarded (lines : List String) : Bool :=
  (List.range lines.length).all fun e =>
    !(parseSentinel (lines.getD e "") == some (false, 0)) ||
      (List.range e).any fun s => isStartLine (lines.getD s "")

/-- Index `i` is closed by a matching pair: a start sentinel with index `i`
strictly before an end sentinel with index `i`. -/
def hasPair (lines : List String) (i : Nat) : Bool :=
  (List.range lines.length).any fun e =>
    (parseSentinel (lines.getD e "") == some (false, i)) &&
      (List.range e).any fun s => parseSentinel (lines.getD s "") == some (true, i)

theorem mfind_eq_none (t : MappedFiles) (addr : Nat) :
    mfind t addr = none ↔ ∀ f ∈ t, containsAddr f addr = false := by
  induction t with
  | nil => simp [mfind]
  | cons f rest ih =>
    by_cases h : containsAddr f addr = true
    · simp [mfind, h]
    · simp only [Bool.not_eq_true] at h
      simp [mfind, h, ih]

theorem mfind_eq_some (t : MappedFiles) (addr : Nat) (f : File)
    (h : mfind t addr = some f) :
    ∃ i, ∃ hi : i < t.length, t.get ⟨i, hi⟩ = f ∧ containsAddr f addr = true ∧
      ∀ j (hj : j < i), containsAddr (t.get ⟨j, by omega⟩) addr = false := by
  induction t with
  | nil => simp [mfind] at h
  | cons g rest ih =>
    by_cases hg : containsAddr g addr = true
    · refine ⟨0, by simp, ?_, ?_, ?_⟩
      · have : f = g := by simpa [mfind, hg] using h.symm
        simp [this]
      · have : g = f := by simpa [mfind, hg] using h
        simpa [← this] using hg
      · intro j hj; omega
    · simp only [Bool.not_eq_true] at hg
      have h' : mfind rest addr = some f := by simpa [mfind, hg] using h
      obtain ⟨i, hi, hget, hc, hmin⟩ := ih h'
      refine ⟨i + 1, by simpa using Nat.succ_lt_succ hi, by simpa using hget, hc, ?_⟩
      intro j hj
      match j with
      | 0 => simpa using hg
      | j + 1 => exact hmin j (by omega)

/-! ### `hexTok` / `parseMapLine` / `mapMExcept` characterisations -/

theorem exceptCases (x : Except ε α) : (∃ e, x = .error e) ∨ (∃ v, x = .ok v) := by
  cases x with
  | error e => exact Or.inl ⟨e, rfl⟩
  | ok v => exact Or.inr ⟨v, rfl⟩

theorem hexTok_ok_iff (t : List Char) (v : Nat) :
    hexTok t = .ok v ↔ 2 ≤ t.length ∧ hexParse (t.drop 2) = some v := by
  by_cases h : t.length < 2
  · simp only [hexTok, stripTwo, if_pos h]
    constructor
    · intro hc; cases hc
    · intro ⟨h2, _⟩; omega
  · have h2 : 2 ≤ t.length := Nat.not_lt.mp h
    cases hp : hexParse (t.drop 2) with
    | none => simp [hexTok, stripTwo, if_neg h, hp]
    | some w => simp [hexTok, stripTwo, if_neg h, hp, h2]

theorem hexTok_error_iff (t : List Char) :
    (∃ e, hexTok t = .error e) ↔ badTok t = true := by
  by_cases h : t.length < 2
  · simp [hexTok, stripTwo, if_pos h, badTok, h]
  · cases hp : hexParse (t.drop 2) with
    | none => simp [hexTok, stripTwo, if_neg h, hp, badTok, h]
    | some w => simp [hexTok, stripTwo, if_neg h, hp, badTok, h]

theorem parseMapLine_ok_iff (l : List Char) (f : File) :
    parseMapLine l = .ok f ↔ LineFile l f := by
  constructor
  · intro h
    unfold parseMapLine at h
    split at h
    case _ t0 t1 t2 t3 rest htk =>
      rcases hs : hexTok t0 with e0 | vs <;> rw [hs] at h
      · cases h
      rcases he : hexTok t1 with e1 | ve <;> rw [he] at h
      · cases h
      rcases ho : hexTok t3 with e3 | vo <;> rw [ho] at h
      · cases h
      obtain ⟨hs1, hs2⟩ := (hexTok_ok_iff t0 vs).mp hs
      obtain ⟨he1, he2⟩ := (hexTok_ok_iff t1 ve).mp he
      obtain ⟨ho1, ho2⟩ := (hexTok_ok_iff t3 vo).mp ho
      cases h
      exact ⟨t0, t1, t2, t3, rest, htk, hs1, hs2, he1, he2, ho1, ho2, rfl⟩
    case _ => cases h
  · rintro ⟨t0, t1, t2, t3, rest, htk, h0l, h0, h1l, h1, h3l, h3, hname⟩
    cases f with
    | mk s e o n =>
      have e0 : hexTok t0 = .ok s := (hexTok_ok_iff t0 s).mpr ⟨h0l, h0⟩
      have e1 : hexTok t1 = .ok e := (hexTok_ok_iff t1 e).mpr ⟨h1l, h1⟩
      have e3 : hexTok t3 = .ok o := (hexTok_ok_iff t3 o).mpr ⟨h3l, h3⟩
      simp only at hname
      subst hname
      simp only [parseMapLine, htk, e0, e1, e3]

theorem parseMapLine_error_iff (l : List Char) :
    (∃ e, parseMapLine l = .error e) ↔ badLine l = true := by
  unfold parseMapLine badLine
  split
  case _ t0 t1 t2 t3 rest htk =>
    rcases exceptCases (hexTok t0) with ⟨e0, h0⟩ | ⟨v0, h0⟩
    · have b0 : badTok t0 = true := (hexTok_error_iff t0).mp ⟨e0, h0⟩
      simp [h0, b0]
    · have b0 : badTok t0 = false := by
        rcases hb : badTok t0 with _ | _
        · rfl
        · obtain ⟨e, he⟩ := (hexTok_error_iff t0).mpr hb
          rw [h0] at he; cases he
      rcases exceptCases (hexTok t1) with ⟨e1, h1⟩ | ⟨v1, h1⟩
      · have b1 : badTok t1 = true := (hexTok_error_iff t1).mp ⟨e1, h1⟩
        simp [h0, h1, b1]
      · have b1 : badTok t1 = false := by
          rcases hb : badTok t1 with _ | _
          · rfl
          · obtain ⟨e, he⟩ := (hexTok_error_iff t1).mpr hb
            rw [h1] at he; cases he
        rcases exceptCases (hexTok t3) with ⟨e3, h3⟩ | ⟨v3, h3⟩
        · have b3 : badTok t3 = true := (hexTok_error_iff t3).mp ⟨e3, h3⟩
          simp [h0, h1, h3, b3, b0, b1]
        · have b3 : badTok t3 = false := by
            rcases hb : badTok t3 with _ | _
            · rfl
            · obtain ⟨e, he⟩ := (hexTok_error_iff t3).mpr hb
              rw [h3] at he; cases he
          simp [h0, h1, h3, b0, b1, b3]
  case _ => simp

theorem mapMExcept_ok_iff (f : α → Except ε β) (l : List α) (ys : List β) :
    mapMExcept f l = .ok ys ↔ List.Forall₂ (fun a b => f a = .ok b) l ys := by
  induction l generalizing ys with
  | nil =>
    cases ys <;> simp [mapMExcept]
  | cons a as ih =>
    cases hfa : f a with
    | error e => simp [mapMExcept, hfa, List.forall₂_cons_left_iff]
    | ok b =>
      cases hrest : mapMExcept f as with
      | error e =>
        simp only [mapMExcept, hfa, hrest, List.forall₂_cons_left_iff]
        constructor
        · intro hc; cases hc
        · rintro ⟨b', u', _, hfa2, rfl⟩
          rw [← ih u'] at hfa2; rw [hrest] at hfa2; cases hfa2
      | ok bs =>
        simp only [mapMExcept, hfa, hrest, List.forall₂_cons_left_iff]
        constructor
        · rintro h
          cases h
          exact ⟨b, bs, rfl, (ih bs).mp hrest, rfl⟩
        · rintro ⟨b', u', hb, hfa2, rfl⟩
          cases hb
          rw [← ih u'] at hfa2; rw [hrest] at hfa2; cases hfa2
          rfl

theorem mapMExcept_error_iff (f : α → Except ε β) (l : List α) :
    (∃ e, mapMExcept f l = .error e) ↔ ∃ a ∈ l, ∃ e, f a = .error e := by
  induction l with
  | nil => simp [mapMExcept]
  | cons a as ih =>
    cases hfa : f a with
    | error e => simp [mapMExcept, hfa]
    | ok b =>
      cases hrest : mapMExcept f as with
      | error e =>
        simp only [mapMExcept, hfa, hrest, List.mem_cons]
        constructor
        · intro _
          obtain ⟨a', ha', he'⟩ := ih.mp ⟨e, hrest⟩
          exact ⟨a', Or.inr ha', he'⟩
        · intro _; exact ⟨e, rfl⟩
      | ok bs =>
        simp only [mapMExcept, hfa, hrest, List.mem_cons]
        constructor
        · rintro ⟨e, he⟩; cases he
        · rintro ⟨a', ha' | ha', e', he'⟩
          · rw [ha'] at he'; rw [hfa] at he'; cases he'
          · obtain ⟨e2, he2⟩ := ih.mpr ⟨a', ha', e', he'⟩
            rw [hrest] at he2; cases he2

theorem fromGdb_ok_iff (mapping : String) (files : MappedFiles) :
    fromGdb mapping = .ok files ↔
      ∃ p, headerIdx mapping = some p ∧
        List.Forall₂ (fun l f => parseMapLine l = .ok f)
          ((linesOf mapping).drop (p + 1)) files := by
  unfold fromGdb
  cases hh : headerIdx mapping with
  | none => simp
  | some p => simp [mapMExcept_ok_iff]

theorem forall₂_get?_right {R : α → β → Prop} {l₁ : List α} {l₂ : List β}
    (h : List.Forall₂ R l₁ l₂) (j : Nat) (b : β) (hb : l₂.get? j = some b) :
    ∃ a, l₁.get? j = some a ∧ R a b := by
  induction h generalizing j with
  | nil => cases j <;> cases hb
  | cons hr _ ih =>
    cases j with
    | zero => cases hb; exact ⟨_, rfl, hr⟩
    | succ j => exact ih j hb

/-! ### Claims C1, C2, C5, C9, C6, C10 -/

/-- C1: `StacktraceEntry` equality is decided by the fixed priority rule: if
both frames have a non-empty debug source file, equality is debug-location
equality; otherwise, if both have a non-empty module and a non-zero offset,
equality is module-and-offset equality; otherwise it is raw address
equality. -/
theorem c1_eq_priority (a b : StacktraceEntry) :
    (a.debug.file ≠ "" → b.debug.file ≠ "" → (steq a b = true ↔ a.debug = b.debug)) ∧
    (¬(a.debug.file ≠ "" ∧ b.debug.file ≠ "") →
      a.module ≠ "" → b.module ≠ "" → a.offset ≠ 0 → b.offset ≠ 0 →
      (steq a b = true ↔ (a.module = b.module ∧ a.offset = b.offset))) ∧
    (¬(a.debug.file ≠ "" ∧ b.debug.file ≠ "") →
      ¬(a.module ≠ "" ∧ b.module ≠ "" ∧ a.offset ≠ 0 ∧ b.offset ≠ 0) →
      (steq a b = true ↔ a.address = b.address)) := by
  refine ⟨?_, ?_, ?_⟩
  · intro ha hb
    simp [steq, ha, hb]
  · intro hno hm hm' ho ho'
    simp [steq, hno, hm, hm', ho, ho']
  · intro hno hno'
    simp [steq, hno, hno']

/-- C1 witness: two frames sharing the debug location `("f", 2, 3)` are
equal although their addresses differ. -/
theorem c1_witness :
    steq ⟨1, "", "", 0, ⟨"f", 2, 3⟩⟩ ⟨9, "", "", 0, ⟨"f", 2, 3⟩⟩ = true :=
  ((c1_eq_priority ⟨1, "", "", 0, ⟨"f", 2, 3⟩⟩ ⟨9, "", "", 0, ⟨"f", 2, 3⟩⟩).1
    (by decide) (by decide)).mpr rfl

/-- C2: the `Hash` implementation is *not* consistent with `PartialEq`: the
frame `a` (address 1, debug file `"f"`) and the frame `b` (address 1, no
debug file) are equal under `eq` — `a` has a debug file but `b` does not,
so comparison falls through to the addresses — yet `a` hashes its debug
triple while `b` hashes its address, so different data is written to the
hasher. -/
theorem c2_eq_hash_inconsistent :
    steq ⟨1, "", "", 0, ⟨"f", 0, 0⟩⟩ ⟨1, "", "", 0, ⟨"", 0, 0⟩⟩ = true ∧
    hashData ⟨1, "", "", 0, ⟨"f", 0, 0⟩⟩ ≠ hashData ⟨1, "", "", 0, ⟨"", 0, 0⟩⟩ := by
  decide

/-- C5: `MappedFiles::find` returns the first region in table order whose
half-open interval `[start, end)` contains the address, and `none` exactly
when no region's interval contains it; an address equal to a region's
`start` is contained (for a non-degenerate region) and an address equal to
its `end` never is. -/
theorem c5_find_first_halfopen (t : MappedFiles) (addr : Nat) :
    (∀ f, mfind t addr = some f →
      containsAddr f addr = true ∧
      ∃ i, ∃ hi : i < t.length, t.get ⟨i, hi⟩ = f ∧
        ∀ j (hj : j < i), containsAddr (t.get ⟨j, by omega⟩) addr = false) ∧
    (mfind t addr = none ↔ ∀ f ∈ t, containsAddr f addr = false) ∧
    (∀ f : File, f.start < f.«end» → containsAddr f f.start = true) ∧
    (∀ f : File, containsAddr f f.«end» = false) := by
  refine ⟨?_, mfind_eq_none t addr, ?_, ?_⟩
  · intro f h
    obtain ⟨i, hi, hget, hc, hmin⟩ := mfind_eq_some t addr f h
    exact ⟨hc, i, hi, hget, hmin⟩
  · intro f h
    simp [containsAddr, h]
  · intro f
    simp [containsAddr]

/-- C5 witness: the start boundary of `[4, 8)` is contained, and the
lookup of the end boundary `8` in a one-region table finds nothing. -/
theorem c5_witness :
    containsAddr ⟨4, 8, 0, ""⟩ 4 = true ∧
    mfind [({ start := 4, «end» := 8, offset := 0, name := "" } : File)] 8 = none := by
  constructor
  · exact (c5_find_first_halfopen [] 0).2.2.1 ⟨4, 8, 0, ""⟩ (by decide)
  · exact (c5_find_first_halfopen [⟨4, 8, 0, ""⟩] 8).2.1.mpr (by decide)

/-- C9: `compute_module_offsets` preserves the length and order of the
trace and the address, function and debug fields of every frame; a frame
whose address resolves to a region gets that region's name as module and
`address - start + offset` (as `u64` arithmetic) as offset; a frame whose
address resolves to no region is unchanged. -/
theorem c9_compute_module_offsets_pointwise (t : List StacktraceEntry) (m : MappedFiles) :
    (computeModuleOffsets t m).length = t.length ∧
    ∀ i x, t.get? i = some x →
      ∃ x', (computeModuleOffsets t m).get? i = some x' ∧
        x'.address = x.address ∧ x'.function = x.function ∧ x'.debug = x.debug ∧
        (∀ y, mfind m x.address = some y →
          x'.offset = (x.address - y.start + y.offset) % U64 ∧ x'.module = y.name) ∧
        (mfind m x.address = none → x' = x) := by
  constructor
  · simp [computeModuleOffsets]
  · intro i x hx
    cases hf : mfind m x.address with
    | some y =>
      refine ⟨{ x with offset := (x.address - y.start + y.offset) % U64, module := y.name },
        ?_, rfl, rfl, rfl, ?_, ?_⟩
      · rw [computeModuleOffsets, List.get?_map, hx]
        simp [hf]
      · intro y' hy'
        cases hy'
        exact ⟨rfl, rfl⟩
      · intro hn; cases hn
    | none =>
      refine ⟨x, ?_, rfl, rfl, rfl, ?_, fun _ => rfl⟩
      · rw [computeModuleOffsets, List.get?_map, hx]
        simp [hf]
      · intro y' hy'; cases hy'

/-- C9 witness: the spec's concrete scenario — address `0x400500` in the
region `[0x400000, 0x401000)` with file offset `0` and path `/bin/app`
resolves to module `/bin/app` and offset `0x500`. -/
theorem c9_witness :
    ∃ x', (computeModuleOffsets [⟨4195584, "f", "", 0, ⟨"", 0, 0⟩⟩]
        [⟨4194304, 4198400, 0, "/bin/app"⟩]).get? 0 = some x' ∧
      x'.address = 4195584 ∧ x'.function = "f" ∧ x'.debug = ⟨"", 0, 0⟩ ∧
      (∀ y, mfind [⟨4194304, 4198400, 0, "/bin/app"⟩] 4195584 = some y →
        x'.offset = (4195584 - y.start + y.offset) % U64 ∧ x'.module = y.name) ∧
      (mfind [⟨4194304, 4198400, 0, "/bin/app"⟩] 4195584 = none →
        x' = ⟨4195584, "f", "", 0, ⟨"", 0, 0⟩⟩) :=
  (c9_compute_module_offsets_pointwise
    [⟨4195584, "f", "", 0, ⟨"", 0, 0⟩⟩] [⟨4194304, 4198400, 0, "/bin/app"⟩]).2 0
    ⟨4195584, "f", "", 0, ⟨"", 0, 0⟩⟩ rfl

/-- C6 (amended): `from_gdb` fails exactly when no trimmed line contains
`"Start Addr"`, or some line after the header — empty lines included, which
fall under the fewer-than-four-tokens case rather than being skipped — has
fewer than four tokens or a bad first, second or fourth token (where a
token shorter than two characters makes the failure a panic, not a typed
error); on success it returns one `File` per line after the header with
start, end, offset parsed from tokens 1, 2, 4 and the path from token 5
exactly when there are exactly five tokens. -/
theorem c6_from_gdb_errors (mapping : String) :
    ((∃ e, fromGdb mapping = .error e) ↔
      headerIdx mapping = none ∨
        ∃ p, headerIdx mapping = some p ∧
          ∃ l ∈ (linesOf mapping).drop (p + 1), badLine l = true) ∧
    (∀ files, fromGdb mapping = .ok files →
      ∃ p, headerIdx mapping = some p ∧
        List.Forall₂ LineFile ((linesOf mapping).drop (p + 1)) files) := by
  constructor
  · cases hh : headerIdx mapping with
    | none =>
      simp only [fromGdb, hh]
      constructor
      · intro _; exact Or.inl trivial
      · intro _; exact ⟨_, rfl⟩
    | some p =>
      simp only [fromGdb, hh]
      rw [mapMExcept_error_iff]
      constructor
      · rintro ⟨l, hl, e, he⟩
        exact Or.inr ⟨p, rfl, l, hl, (parseMapLine_error_iff l).mp ⟨e, he⟩⟩
      · rintro (h | ⟨p', hp', l, hl, hbad⟩)
        · cases h
        · cases hp'
          exact ⟨l, hl, (parseMapLine_error_iff l).mpr hbad⟩
  · intro files h
    obtain ⟨p, hp, hfa⟩ := (fromGdb_ok_iff mapping files).mp h
    exact ⟨p, hp, hfa.imp (fun l f hpl => (parseMapLine_ok_iff l f).mp hpl)⟩

/-- C6 witness: input without the header phrase is rejected. -/
theorem c6_witness : ∃ e, fromGdb "no data" = .error e :=
  (c6_from_gdb_errors "no data").1.mpr (Or.inl rfl)

/-- C6 counterexample to the claim as stated: an empty line after the
header is not skipped — it produces the too-few-columns parse error where
the claim predicts success with no regions — and a line whose first token
has fewer than two characters aborts (Rust panic in `String::drain`)
instead of returning a typed parse error. -/
theorem c6_counterexample :
    fromGdb "Start Addr\n" = .error (.parseError "Expected at least 4 columns in ") ∧
    fromGdb "Start Addr\na b c 0x0" = .error (.panic "byte index 2 is out of bounds") :=
  ⟨rfl, rfl⟩

/-- C10 (amended): `from_gdb` does not enforce `start < end`; each returned
region's `start` and `end` are exactly the hex values parsed from its
line's first and second tokens (after stripping two characters), so the
invariant holds for a region if and only if the parsed values of its input
line are ordered. -/
theorem c10_start_end_from_tokens (mapping : String) (files : MappedFiles)
    (h : fromGdb mapping = .ok files) :
    ∀ j f, files.get? j = some f →
      ∃ p l, headerIdx mapping = some p ∧
        (linesOf mapping).get? (p + 1 + j) = some l ∧ LineFile l f := by
  intro j f hf
  obtain ⟨p, hp, hfa⟩ := (fromGdb_ok_iff mapping files).mp h
  obtain ⟨l, hl, hr⟩ := forall₂_get?_right hfa j f hf
  refine ⟨p, l, hp, ?_, (parseMapLine_ok_iff l f).mp hr⟩
  rw [← List.get?_drop]
  exact hl

/-- C10 counterexample to the claim as stated: a data line with
`start = 0x10` and `end = 0x08` is accepted, producing a region violating
`start < end`. -/
theorem c10_counterexample :
    fromGdb "Start Addr\n0x10 0x08 rw 0x0 x" =
      .ok [{ start := 16, «end» := 8, offset := 0, name := "x" }] ∧
    ¬((16 : Nat) < 8) :=
  ⟨rfl, by omega⟩

/-- C10 witness: a well-formed line yields a region whose bounds are the
parsed token values. -/
theorem c10_witness :
    ∃ p l, headerIdx "Start Addr\n0x10 0x20 rw 0x5 /bin" = some p ∧
      (linesOf "Start Addr\n0x10 0x20 rw 0x5 /bin").get? (p + 1 + 0) = some l ∧
      LineFile l { start := 16, «end» := 32, offset := 5, name := "/bin" } :=
  c10_start_end_from_tokens "Start Addr\n0x10 0x20 rw 0x5 /bin"
    [{ start := 16, «end» := 32, offset := 5, name := "/bin" }] rfl 0
    { start := 16, «end» := 32, offset := 5, name := "/bin" } rfl

/-! ### `StacktraceEntry::new`: the only typed error is the final
"couldn't parse" one; every other failure is an `unwrap` panic -/

theorem grpE_error (c : Caps) (n : Nat) (e : PErr) (h : grpE c n = .error e) :
    e = .panic "unwrap on None: capture group missing" := by
  unfold grpE at h
  split at h
  · cases h
  · cases h; rfl

theorem u64OfHexDigits_error (w : String) (ds : List Char) (e : PErr)
    (h : u64OfHexDigits w ds = .error e) :
    e = .panic ("unwrap on Err: " ++ w ++ " overflows u64") := by
  unfold u64OfHexDigits at h
  split at h
  · cases h
  · cases h; rfl

theorem u64OfDecDigits_error (w : String) (ds : List Char) (e : PErr)
    (h : u64OfDecDigits w ds = .error e) :
    e = .panic ("unwrap on Err: " ++ w ++ " overflows u64") := by
  unfold u64OfDecDigits at h
  split at h
  · cases h
  · cases h; rfl

theorem optAddr_error (c : Caps) (e : PErr) (h : optAddr c = .error e) :
    e = .panic ("unwrap on Err: " ++ "address" ++ " overflows u64") := by
  unfold optAddr at h
  split at h
  · exact u64OfHexDigits_error _ _ _ h
  · cases h

theorem bld1_error_panic (caps : Caps) (e : PErr) (h : bld1 caps = .error e) :
    ∃ m, e = .panic m := by
  unfold bld1 at h
  repeat' split at h
  all_goals try cases h
  all_goals first
    | exact ⟨_, grpE_error _ _ _ (by assumption)⟩
    | exact ⟨_, u64OfHexDigits_error _ _ _ (by assumption)⟩

theorem bld2_error_panic (caps : Caps) (e : PErr) (h : bld2 caps = .error e) :
    ∃ m, e = .panic m := by
  unfold bld2 at h
  repeat' split at h
  all_goals try cases h
  all_goals first
    | exact ⟨_, grpE_error _ _ _ (by assumption)⟩
    | exact ⟨_, u64OfHexDigits_error _ _ _ (by assumption)⟩
    | exact ⟨_, u64OfDecDigits_error _ _ _ (by assumption)⟩
    | exact ⟨_, optAddr_error _ _ (by assumption)⟩

theorem bld3_error_panic (caps : Caps) (e : PErr) (h : bld3 caps = .error e) :
    ∃ m, e = .panic m := by
  unfold bld3 at h
  repeat' split at h
  all_goals try cases h
  all_goals first
    | exact ⟨_, grpE_error _ _ _ (by assumption)⟩
    | exact ⟨_, u64OfDecDigits_error _ _ _ (by assumption)⟩
    | exact ⟨_, optAddr_error _ _ (by assumption)⟩

theorem bld4_error_panic (caps : Caps) (e : PErr) (h : bld4 caps = .error e) :
    ∃ m, e = .panic m := by
  unfold bld4 at h
  repeat' split at h
  all_goals try cases h
  all_goals first
    | exact ⟨_, grpE_error _ _ _ (by assumption)⟩
    | exact ⟨_, optAddr_error _ _ (by assumption)⟩

theorem bld5_error_panic (caps : Caps) (e : PErr) (h : bld5 caps = .error e) :
    ∃ m, e = .panic m := by
  unfold bld5 at h
  repeat' split at h
  all_goals try cases h
  all_goals first
    | exact ⟨_, grpE_error _ _ _ (by assumption)⟩
    | exact ⟨_, u64OfHexDigits_error _ _ _ (by assumption)⟩
    | exact ⟨_, u64OfDecDigits_error _ _ _ (by assumption)⟩

theorem bld6_error_panic (caps : Caps) (e : PErr) (h : bld6 caps = .error e) :
    ∃ m, e = .panic m := by
  unfold bld6 at h
  repeat' split at h
  all_goals try cases h
  all_goals first
    | exact ⟨_, grpE_error _ _ _ (by assumption)⟩
    | exact ⟨_, u64OfHexDigits_error _ _ _ (by assumption)⟩
    | exact ⟨_, u64OfDecDigits_error _ _ _ (by assumption)⟩

theorem bld7_error_panic (caps : Caps) (e : PErr) (h : bld7 caps = .error e) :
    ∃ m, e = .panic m := by
  unfold bld7 at h
  repeat' split at h
  all_goals try cases h
  all_goals first
    | exact ⟨_, grpE_error _ _ _ (by assumption)⟩
    | exact ⟨_, u64OfHexDigits_error _ _ _ (by assumption)⟩

theorem bld8_error_panic (caps : Caps) (e : PErr) (h : bld8 caps = .error e) :
    ∃ m, e = .panic m := by
  unfold bld8 at h
  repeat' split at h
  all_goals try cases h
  all_goals first
    | exact ⟨_, grpE_error _ _ _ (by assumption)⟩
    | exact ⟨_, optAddr_error _ _ (by assumption)⟩

theorem stNew_typed_error (entry : String) (m : String)
    (h : stNew entry = .error (.parseError m)) :
    m = "Couldn't parse stack trace entry: " ++ entry := by
  unfold stNew at h
  repeat' split at h
  all_goals first
    | (obtain ⟨mm, hmm⟩ := bld1_error_panic _ _ h; cases hmm)
    | (obtain ⟨mm, hmm⟩ := bld2_error_panic _ _ h; cases hmm)
    | (obtain ⟨mm, hmm⟩ := bld3_error_panic _ _ h; cases hmm)
    | (obtain ⟨mm, hmm⟩ := bld4_error_panic _ _ h; cases hmm)
    | (obtain ⟨mm, hmm⟩ := bld5_error_panic _ _ h; cases hmm)
    | (obtain ⟨mm, hmm⟩ := bld6_error_panic _ _ h; cases hmm)
    | (obtain ⟨mm, hmm⟩ := bld7_error_panic _ _ h; cases hmm)
    | (obtain ⟨mm, hmm⟩ := bld8_error_panic _ _ h; cases hmm)
    | (cases h; rfl)

/-! ### Claims C7, C8 -/

/-- C8 (amended): `StacktraceEntry::new` is total and, for every input
line, returns a parsed frame, or panics inside a numeric `unwrap` (a
matched digit group too large for `u64` is never silently defaulted to
zero — it aborts), or returns the one typed parse error, which names the
offending line. -/
theorem c8_new_total_shape (entry : String) :
    (∃ x, stNew entry = .ok x) ∨ (∃ m, stNew entry = .error (.panic m)) ∨
      stNew entry = .error (.parseError ("Couldn't parse stack trace entry: " ++ entry)) := by
  rcases exceptCases (stNew entry) with ⟨e, he⟩ | ⟨v, hv⟩
  · cases e with
    | parseError m =>
      right; right
      rw [stNew_typed_error entry m he] at he
      exact he
    | panic m => exact Or.inr (Or.inl ⟨m, he⟩)
  · exact Or.inl ⟨v, hv⟩

/-- C8 counterexample to the claim as stated: a 17-digit hexadecimal
address (value `2^64`) matches rule 1, its `u64` conversion fails, and
the failure is `unwrap`ped into a panic — an abort, not a returned error
result. -/
theorem c8_counterexample :
    stNew "#0 0x10000000000000000 in f (m+0x1)" =
      .error (.panic "unwrap on Err: address overflows u64") := rfl

/-- C7 (amended): the line `#1 0x00000000004011a0 in foo (libfoo.so+0x1a0)`
parses through the sanitizer module+offset rule to address `0x4011a0`,
module `libfoo.so`, offset `0x1a0` — and function name `"foo"`: under the
leftmost-first capture semantics of the `regex` crate the optional
`(?:in *(.+))?` group participates, so the function name is not empty. -/
theorem c7_parse_module_offset_line :
    stNew "#1 0x00000000004011a0 in foo (libfoo.so+0x1a0)" =
      .ok ⟨0x4011a0, "foo", "libfoo.so", 0x1a0, ⟨"", 0, 0⟩⟩ := rfl

/-- C7 counterexample to the claim as stated: the parsed frame does not
have an empty function name. -/
theorem c7_counterexample :
    ¬ ∃ x, stNew "#1 0x00000000004011a0 in foo (libfoo.so+0x1a0)" = .ok x ∧
      x.function = "" := by
  rintro ⟨x, hx, hf⟩
  have h : stNew "#1 0x00000000004011a0 in foo (libfoo.so+0x1a0)" =
      .ok ⟨0x4011a0, "foo", "libfoo.so", 0x1a0, ⟨"", 0, 0⟩⟩ := rfl
  rw [h] at hx
  cases hx
  exact absurd hf (by decide)

/-! ### The demultiplexing loop -/

theorem demuxStep_none (N : Nat) (lines : List String) (st : DemuxSt) (i : Nat)
    (l : String) (h : parseSentinel l = none) : demuxStep N lines st i l = .ok st := by
  simp [demuxStep, h]

theorem demuxStep_start (N : Nat) (lines : List String) (s0 c0 : Nat) (res : List String)
    (i : Nat) (l : String) (v : Nat) (h : parseSentinel l = some (true, v))
    (hv : v ≤ USIZE_MAX) :
    demuxStep N lines ⟨s0, c0, res⟩ i l = .ok ⟨i, v, res⟩ := by
  simp [demuxStep, h, hv]

theorem demuxStep_end_write (N : Nat) (lines : List String) (s0 c0 : Nat)
    (res : List String) (i : Nat) (l : String)
    (h : parseSentinel l = some (false, c0)) (hv : c0 ≤ USIZE_MAX) (hlt : c0 < N)
    (hst : s0 + 1 ≤ i) :
    demuxStep N lines ⟨s0, c0, res⟩ i l =
      .ok ⟨s0, c0, res.set c0 (sliceJoin lines (s0 + 1) i)⟩ := by
  simp [demuxStep, h, hv, hlt, hst]

theorem demuxStep_end_skip (N : Nat) (lines : List String) (st : DemuxSt) (i : Nat)
    (l : String) (v : Nat) (h : parseSentinel l = some (false, v))
    (hv : v ≤ USIZE_MAX) (hne : ¬(v = st.cmdIdx ∧ st.cmdIdx < N)) :
    demuxStep N lines st i l = .ok st := by
  simp [demuxStep, h, hv, hne]

theorem demuxLoop_cons_ok (N : Nat) (lines : List String) (i : Nat) (l : String)
    (rest : List (Nat × String)) (st st' : DemuxSt)
    (h : demuxStep N lines st i l = .ok st') :
    demuxLoop N lines ((i, l) :: rest) st = demuxLoop N lines rest st' := by
  simp [demuxLoop, h]

theorem demuxLoop_cons_error (N : Nat) (lines : List String) (i : Nat) (l : String)
    (rest : List (Nat × String)) (st : DemuxSt) (e : String)
    (h : demuxStep N lines st i l = .error e) :
    demuxLoop N lines ((i, l) :: rest) st = .error e := by
  simp [demuxLoop, h]

theorem demuxLoop_skip (N : Nat) (lines : List String) (seg : List String)
    (hseg : ∀ s ∈ seg, parseSentinel s = none) :
    ∀ (k : Nat) (rest : List (Nat × String)) (st : DemuxSt),
      demuxLoop N lines (List.enumFrom k seg ++ rest) st = demuxLoop N lines rest st := by
  induction seg with
  | nil => intro k rest st; rfl
  | cons a seg ih =>
    intro k rest st
    have ha : parseSentinel a = none := hseg a (by simp)
    have hseg' : ∀ s ∈ seg, parseSentinel s = none := fun s hs => hseg s (by simp [hs])
    rw [List.enumFrom_cons, List.cons_append,
        demuxLoop_cons_ok N lines k a _ st st (demuxStep_none N lines st k a ha)]
    exact ih hseg' (k + 1) rest st

theorem demuxLoop_session (N : Nat) (lines : List String) (segs : List Seg) :
    ∀ (final : List String) (k i : Nat) (st : DemuxSt),
      lines.drop k = sessionLines segs ++ final →
      (∀ j, j < segs.length → SegOk (i + j) (segs.getD j default)) →
      (∀ s ∈ final, parseSentinel s = none) →
      i + segs.length ≤ N → N ≤ USIZE_MAX + 1 →
      demuxLoop N lines (List.enumFrom k (sessionLines segs ++ final)) st =
        .ok (setSeq st.results i segs) := by
  induction segs with
  | nil =>
    intro final k i st hdrop hsegs hfinal hN hU
    rw [sessionLines, List.nil_append]
    have hs := demuxLoop_skip N lines final hfinal k [] st
    rw [List.append_nil] at hs
    rw [hs]
    rfl
  | cons g segs ih =>
    intro final k i st hdrop hsegs hfinal hN hU
    obtain ⟨s0, c0, res⟩ := st
    have hg : SegOk i g := by
      have h0 := hsegs 0 (by simp)
      simpa using h0
    obtain ⟨hjunk, hbody, hsl, hel⟩ := hg
    have hiN : i < N := by
      simp only [List.length_cons] at hN; omega
    have hiU : i ≤ USIZE_MAX := by
      unfold USIZE_MAX U64 at hU ⊢; omega
    have hX : sessionLines (g :: segs) ++ final =
        g.junk ++ (g.sline :: (g.body ++ (g.eline :: (sessionLines segs ++ final)))) := by
      simp [sessionLines, Seg.lines]
    rw [hX, List.enumFrom_append,
        demuxLoop_skip N lines g.junk hjunk k _ _,
        List.enumFrom_cons,
        demuxLoop_cons_ok _ _ _ _ _ _ _
          (demuxStep_start N lines s0 c0 res (k + g.junk.length) g.sline i hsl hiU),
        List.enumFrom_append,
        demuxLoop_skip N lines g.body hbody (k + g.junk.length + 1) _ _,
        List.enumFrom_cons,
        demuxLoop_cons_ok _ _ _ _ _ _ _
          (demuxStep_end_write N lines (k + g.junk.length) i res
            (k + g.junk.length + 1 + g.body.length) g.eline hel hiU hiN (by omega))]
    have hdropk : lines.drop (k + g.junk.length + 1) =
        g.body ++ (g.eline :: (sessionLines segs ++ final)) := by
      have h1 : lines.drop (k + g.junk.length + 1) =
          (lines.drop k).drop (g.junk.length + 1) := by
        rw [List.drop_drop]
        congr 1
      rw [h1, hdrop, hX]
      have h2 : g.junk ++ (g.sline :: (g.body ++ (g.eline :: (sessionLines segs ++ final)))) =
          (g.junk ++ [g.sline]) ++ (g.body ++ (g.eline :: (sessionLines segs ++ final))) := by
        simp
      have h3 : g.junk.length + 1 = (g.junk ++ [g.sline]).length := by simp
      rw [h2, h3, List.drop_left]
    have hslice : sliceJoin lines (k + g.junk.length + 1)
        (k + g.junk.length + 1 + g.body.length) = joinLines g.body := by
      unfold sliceJoin
      rw [hdropk]
      have h4 : k + g.junk.length + 1 + g.body.length - (k + g.junk.length + 1) =
          g.body.length := by omega
      rw [h4, List.take_left]
    rw [hslice]
    have hdrop2 : lines.drop (k + g.junk.length + 1 + g.body.length + 1) =
        sessionLines segs ++ final := by
      have h1 : lines.drop (k + g.junk.length + 1 + g.body.length + 1) =
          (lines.drop (k + g.junk.length + 1)).drop (g.body.length + 1) := by
        rw [List.drop_drop]
        congr 1
      rw [h1, hdropk]
      have h2 : g.body ++ (g.eline :: (sessionLines segs ++ final)) =
          (g.body ++ [g.eline]) ++ (sessionLines segs ++ final) := by
        simp
      have h3 : g.body.length + 1 = (g.body ++ [g.eline]).length := by simp
      rw [h2, h3, List.drop_left]
    have hsegs' : ∀ j, j < segs.length → SegOk (i + 1 + j) (segs.getD j default) := by
      intro j hj
      have h6 := hsegs (j + 1) (by simp only [List.length_cons]; omega)
      have h7 : i + (j + 1) = i + 1 + j := by omega
      rw [h7] at h6
      simpa using h6
    rw [ih final (k + g.junk.length + 1 + g.body.length + 1) (i + 1)
        ⟨k + g.junk.length, i, res.set i (joinLines g.body)⟩ hdrop2 hsegs' hfinal
        (by simp only [List.length_cons] at hN; omega) hU]
    rfl

theorem setSeq_length (segs : List Seg) :
    ∀ (res : List String) (i : Nat), (setSeq res i segs).length = res.length := by
  induction segs with
  | nil => intro res i; rfl
  | cons g segs ih =>
    intro res i
    rw [setSeq, ih, List.length_set]

theorem setSeq_get?_lt (segs : List Seg) :
    ∀ (res : List String) (i j : Nat), j < i →
      (setSeq res i segs).get? j = res.get? j := by
  induction segs with
  | nil => intro res i j _; rfl
  | cons g segs ih =>
    intro res i j hj
    rw [setSeq, ih _ _ _ (by omega), List.get?_set_ne _ _ (by omega)]

theorem get?_set_self (l : List String) (i : Nat) (a : String) (h : i < l.length) :
    (l.set i a).get? i = some a := by
  rw [List.get?_set_eq]
  simp [List.get?_eq_getElem?, List.getElem?_eq_getElem h]

theorem setSeq_get? (segs : List Seg) :
    ∀ (res : List String) (i j : Nat), i + segs.length ≤ res.length → j < segs.length →
      (setSeq res i segs).get? (i + j) = some (joinLines ((segs.getD j default).body)) := by
  induction segs with
  | nil => intro res i j _ hj; cases hj
  | cons g segs ih =>
    intro res i j hlen hj
    cases j with
    | zero =>
      rw [setSeq]
      have h1 : (setSeq (res.set i (joinLines g.body)) (i + 1) segs).get? (i + 0) =
          (res.set i (joinLines g.body)).get? i := by
        rw [Nat.add_zero]
        exact setSeq_get?_lt segs _ _ _ (by omega)
      rw [h1, get?_set_self _ _ _ (by simp only [List.length_cons] at hlen; omega)]
      rfl
    | succ j =>
      rw [setSeq]
      have h1 : i + (j + 1) = (i + 1) + j := by omega
      rw [h1, ih _ _ _ (by simp only [List.length_cons] at hlen; rw [List.length_set]; omega)
        (by simp only [List.length_cons] at hj; omega)]
      simp

/-! ### Claim C3 -/

/-- C3: demultiplexing raw output that contains, in emission order, a
matching start/end sentinel pair for every command index `0..N-1` (and no
other sentinel-shaped line) returns exactly `N` results; result `j` is
the (possibly empty) run of lines strictly between start sentinel `j` and
end sentinel `j`, rejoined with newlines, and consists only of
non-sentinel lines. -/
theorem c3_demux_pairs (N : Nat) (segs : List Seg) (final : List String)
    (hN : segs.length = N) (hU : N ≤ USIZE_MAX + 1)
    (hsegs : ∀ j, j < segs.length → SegOk j (segs.getD j default))
    (hfinal : ∀ s ∈ final, parseSentinel s = none) :
    ∃ res, demuxLines N (sessionLines segs ++ final) = .ok res ∧
      res.length = N ∧
      ∀ j, j < N →
        res.get? j = some (joinLines ((segs.getD j default).body)) ∧
        ∀ s ∈ (segs.getD j default).body, parseSentinel s = none := by
  have hsegs0 : ∀ j, j < segs.length → SegOk (0 + j) (segs.getD j default) := by
    intro j hj
    rw [Nat.zero_add]
    exact hsegs j hj
  have hmain := demuxLoop_session N (sessionLines segs ++ final) segs final 0 0
    ⟨0, 0, List.replicate N ""⟩ (by rw [List.drop_zero]) hsegs0 hfinal
    (by omega) hU
  refine ⟨setSeq (List.replicate N "") 0 segs, ?_, ?_, ?_⟩
  · unfold demuxLines
    rw [List.enum_eq_enumFrom]
    exact hmain
  · rw [setSeq_length, List.length_replicate]
  · intro j hj
    constructor
    · have h1 := setSeq_get? segs (List.replicate N "") 0 j
        (by rw [List.length_replicate]; omega) (by omega)
      rw [Nat.zero_add] at h1
      exact h1
    · exact (hsegs j (by omega)).2.1

/-- C3 witness: one command whose output is the single line `out`,
followed by trailing non-sentinel text. -/
theorem c3_witness :
    ∃ res, demuxLines 1
        (sessionLines [⟨[], "$1 = \"gdb-command-start-0\"", ["out"],
          "$2 = \"gdb-command-end-0\""⟩] ++ ["tail"]) = .ok res ∧
      res.length = 1 ∧
      ∀ j, j < 1 →
        res.get? j = some (joinLines (([⟨[], "$1 = \"gdb-command-start-0\"", ["out"],
          "$2 = \"gdb-command-end-0\""⟩] : List Seg).getD j default).body) ∧
        ∀ s ∈ (([⟨[], "$1 = \"gdb-command-start-0\"", ["out"],
          "$2 = \"gdb-command-end-0\""⟩] : List Seg).getD j default).body,
          parseSentinel s = none :=
  c3_demux_pairs 1
    [⟨[], "$1 = \"gdb-command-start-0\"", ["out"], "$2 = \"gdb-command-end-0\""⟩]
    ["tail"] rfl (by unfold USIZE_MAX U64; omega) (by decide) (by decide)

/-! ### The demultiplexing loop never panics on guarded input -/

theorem isStartLine_none (l : String) (h : parseSentinel l = none) :
    isStartLine l = false := by
  simp [isStartLine, h]

theorem isStartLine_end (l : String) (v : Nat) (h : parseSentinel l = some (false, v)) :
    isStartLine l = false := by
  simp [isStartLine, h]

theorem idxOk_le (l : String) (b : Bool) (v : Nat) (h : parseSentinel l = some (b, v))
    (hok : idxOk l = true) : v ≤ USIZE_MAX := by
  simpa [idxOk, h] using hok

theorem getD_of_get? (l : List String) (n : Nat) (x : String) (h : l.get? n = some x) :
    l.getD n "" = x := by
  rw [List.getD_eq_get?, h]
  rfl

theorem get?_eq_getD (l : List String) (s : Nat) (h : s < l.length) :
    l.get? s = some (l.getD s "") := by
  rw [List.getD_eq_get?]
  cases hq : l.get? s with
  | none =>
    rw [List.get?_eq_none] at hq
    omega
  | some x => rfl

theorem hasPair_intro (lines : List String) (i s e : Nat) (hse : s < e)
    (he : e < lines.length)
    (hs : parseSentinel (lines.getD s "") = some (true, i))
    (hee : parseSentinel (lines.getD e "") = some (false, i)) :
    hasPair lines i = true := by
  unfold hasPair
  rw [List.any_eq_true]
  refine ⟨e, List.mem_range.mpr he, ?_⟩
  rw [Bool.and_eq_true]
  constructor
  · simp only [beq_iff_eq]
    exact hee
  · rw [List.any_eq_true]
    refine ⟨s, List.mem_range.mpr hse, ?_⟩
    simp only [beq_iff_eq]
    exact hs

theorem end0Guarded_elim (lines : List String) (h : end0Guarded lines = true)
    (k : Nat) (hk : k < lines.length)
    (hek : parseSentinel (lines.getD k "") = some (false, 0)) :
    ∃ s, s < k ∧ isStartLine (lines.getD s "") = true := by
  unfold end0Guarded at h
  rw [List.all_eq_true] at h
  have h2 := h k (List.mem_range.mpr hk)
  rw [Bool.or_eq_true] at h2
  rcases h2 with h2 | h2
  · rw [Bool.not_eq_true'] at h2
    rw [beq_eq_false_iff_ne] at h2
    exact absurd hek h2
  · rw [List.any_eq_true] at h2
    obtain ⟨s, hsmem, hs2⟩ := h2
    exact ⟨s, List.mem_range.mp hsmem, hs2⟩

theorem replicate_get? (a : String) (N : Nat) :
    ∀ i, i < N → (List.replicate N a).get? i = some a := by
  induction N with
  | zero => intro i hi; omega
  | succ n ih =>
    intro i hi
    cases i with
    | zero => rfl
    | succ i => exact ih i (by omega)

theorem demuxLoop_safe (N : Nat) (lines : List String)
    (hov : ∀ l ∈ lines, idxOk l = true)
    (hg : end0Guarded lines = true) :
    ∀ (t : List String) (k s0 c0 : Nat) (res : List String),
      lines.drop k = t →
      res.length = N →
      ((s0 < k ∧ ∃ ls, lines.get? s0 = some ls ∧ parseSentinel ls = some (true, c0)) ∨
        (s0 = 0 ∧ c0 = 0 ∧
          ∀ s ls, s < k → lines.get? s = some ls → isStartLine ls = false)) →
      (∀ i, i < N → hasPair lines i = false → res.get? i = some "") →
      ∃ fres, demuxLoop N lines (List.enumFrom k t) ⟨s0, c0, res⟩ = .ok fres ∧
        fres.length = N ∧ ∀ i, i < N → hasPair lines i = false → fres.get? i = some "" := by
  intro t
  induction t with
  | nil =>
    intro k s0 c0 res _ hres _ hC
    exact ⟨res, rfl, hres, hC⟩
  | cons l t ih =>
    intro k s0 c0 res hdropk hres hB hC
    have hk : lines.get? k = some l := by
      have h1 := List.get?_drop lines k 0
      rw [hdropk] at h1
      simpa using h1.symm
    obtain ⟨hkl, -⟩ := List.get?_eq_some.mp hk
    have hmem : l ∈ lines := List.get?_mem hk
    have hdropk1 : lines.drop (k + 1) = t := by
      rw [← List.drop_drop, hdropk]
      rfl
    rw [List.enumFrom_cons]
    cases hps : parseSentinel l with
    | none =>
      rw [demuxLoop_cons_ok _ _ _ _ _ _ _ (demuxStep_none N lines ⟨s0, c0, res⟩ k l hps)]
      apply ih (k + 1) s0 c0 res hdropk1 hres ?_ hC
      rcases hB with ⟨hsk, hex⟩ | ⟨h0, h0', hnost⟩
      · exact Or.inl ⟨by omega, hex⟩
      · refine Or.inr ⟨h0, h0', ?_⟩
        intro s ls hs hls
        rcases Nat.lt_or_ge s k with hlt | hge
        · exact hnost s ls hlt hls
        · have hsk2 : s = k := by omega
          subst hsk2
          rw [hk] at hls
          cases hls
          exact isStartLine_none l hps
    | some bv =>
      obtain ⟨b, v⟩ := bv
      have hvU : v ≤ USIZE_MAX := idxOk_le l b v hps (hov l hmem)
      cases b with
      | true =>
        rw [demuxLoop_cons_ok _ _ _ _ _ _ _
          (demuxStep_start N lines s0 c0 res k l v hps hvU)]
        apply ih (k + 1) k v res hdropk1 hres ?_ hC
        exact Or.inl ⟨by omega, l, hk, hps⟩
      | false =>
        by_cases hvc : v = c0 ∧ c0 < N
        · have hveq : v = c0 := hvc.1
          have hcN : c0 < N := hvc.2
          have hB1 : s0 < k ∧ ∃ ls, lines.get? s0 = some ls ∧
              parseSentinel ls = some (true, c0) := by
            rcases hB with h1 | ⟨h0, h0', hnost⟩
            · exact h1
            · exfalso
              obtain ⟨s, hsk, hstart⟩ := end0Guarded_elim lines hg k hkl
                (by rw [getD_of_get? _ _ _ hk, hps, hveq, h0'])
              have hget : lines.get? s = some (lines.getD s "") :=
                get?_eq_getD lines s (by omega)
              have := hnost s (lines.getD s "") hsk hget
              rw [hstart] at this
              cases this
          obtain ⟨hsk, ls, hgs, hpls⟩ := hB1
          subst hveq
          rw [demuxLoop_cons_ok _ _ _ _ _ _ _
            (demuxStep_end_write N lines s0 v res k l hps hvU hcN (by omega))]
          have hpair : hasPair lines v = true :=
            hasPair_intro lines v s0 k hsk hkl
              (by rw [getD_of_get? _ _ _ hgs]; exact hpls)
              (by rw [getD_of_get? _ _ _ hk]; exact hps)
          apply ih (k + 1) s0 v _ hdropk1 (by rw [List.length_set]; exact hres)
            (Or.inl ⟨by omega, ls, hgs, hpls⟩) ?_
          intro i hi hnp
          have hne : v ≠ i := by
            intro hiv
            rw [hiv] at hpair
            rw [hpair] at hnp
            cases hnp
          rw [List.get?_set_ne _ _ hne]
          exact hC i hi hnp
        · rw [demuxLoop_cons_ok _ _ _ _ _ _ _
            (demuxStep_end_skip N lines ⟨s0, c0, res⟩ k l v hps hvU hvc)]
          apply ih (k + 1) s0 c0 res hdropk1 hres ?_ hC
          rcases hB with ⟨hsk, hex⟩ | ⟨h0, h0', hnost⟩
          · exact Or.inl ⟨by omega, hex⟩
          · refine Or.inr ⟨h0, h0', ?_⟩
            intro s ls hs hls
            rcases Nat.lt_or_ge s k with hlt | hge
            · exact hnost s ls hlt hls
            · have hsk2 : s = k := by omega
              subst hsk2
              rw [hk] at hls
              cases hls
              exact isStartLine_end l v hps

/-! ### Claim C4 -/

/-- C4 (amended): demultiplexing succeeds — returning exactly `N` results —
for every raw output in which each sentinel-shaped line carries an index
that fits in `usize` and every end sentinel with index 0 is preceded by
some start sentinel; and every command index `i` for which no start
sentinel with index `i` strictly precedes an end sentinel with index `i`
(in particular an index whose end sentinel is missing) yields the empty
string; an end sentinel whose index does not match the currently open
start index writes nothing. -/
theorem c4_demux_no_error (N : Nat) (lines : List String)
    (hov : ∀ l ∈ lines, idxOk l = true)
    (hg : end0Guarded lines = true) :
    (∃ res, demuxLines N lines = .ok res ∧ res.length = N ∧
      ∀ i, i < N → hasPair lines i = false → res.get? i = some "") ∧
    (∀ (st : DemuxSt) (i : Nat) (l : String) (v : Nat),
      parseSentinel l = some (false, v) → v ≤ USIZE_MAX →
      ¬(v = st.cmdIdx ∧ st.cmdIdx < N) →
      demuxStep N lines st i l = .ok st) := by
  constructor
  · unfold demuxLines
    rw [List.enum_eq_enumFrom]
    exact demuxLoop_safe N lines hov hg lines 0 0 0 (List.replicate N "") rfl
      (List.length_replicate N "")
      (Or.inr ⟨rfl, rfl, fun s ls hs _ => absurd hs (Nat.not_lt_zero s)⟩)
      (fun i hi _ => replicate_get? "" N i hi)
  · intro st i l v h hv hne
    exact demuxStep_end_skip N lines st i l v h hv hne

/-- C4 counterexample to the claim as stated: with one registered command
and no start sentinel anywhere in the output, an end sentinel with index 0
is matched against the *initial* `cmd_idx = 0`, and result 0 receives the
lines `lines[1..2]` — so command index 0, though closed by no start/end
pair, does not yield the empty string; moreover, when that end sentinel is
the very first output line the slice `lines[1..0]` panics, so
demultiplexing does not succeed on every raw output. -/
theorem c4_counterexample :
    (∀ l ∈ ["a", "b", "$2 = \"gdb-command-end-0\""], isStartLine l = false) ∧
    demuxLines 1 ["a", "b", "$2 = \"gdb-command-end-0\""] = .ok ["b"] ∧
    demuxLines 1 ["$2 = \"gdb-command-end-0\""] =
      .error "panic: slice index starts after end" :=
  ⟨by decide, rfl, rfl⟩

/-- C4 witness: three commands, output missing only command index 2's end
sentinel; no result errors and the unmatched index resolves to the empty
string. -/
theorem c4_witness :
    ∃ res, demuxLines 3 ["$1 = \"gdb-command-start-0\"", "x",
        "$2 = \"gdb-command-end-0\"", "$3 = \"gdb-command-start-1\"",
        "$4 = \"gdb-command-end-1\"", "$5 = \"gdb-command-start-2\"", "y"] = .ok res ∧
      res.length = 3 ∧
      ∀ i, i < 3 → hasPair ["$1 = \"gdb-command-start-0\"", "x",
        "$2 = \"gdb-command-end-0\"", "$3 = \"gdb-command-start-1\"",
        "$4 = \"gdb-command-end-1\"", "$5 = \"gdb-command-start-2\"", "y"] i = false →
        res.get? i = some "" :=
  (c4_demux_no_error 3 ["$1 = \"gdb-command-start-0\"", "x",
    "$2 = \"gdb-command-end-0\"", "$3 = \"gdb-command-start-1\"",
    "$4 = \"gdb-command-end-1\"", "$5 = \"gdb-command-start-2\"", "y"]
    (by decide) (by decide)).1
